import Mathlib

set_option maxRecDepth 8000

/-!
# Verification of the cobblestone firmware bundler and updater

Byte-level shallow embedding of `src/tools/fw_protect.py` (the bundler) and
`src/tools/fw_update.py` (the transfer session).  Bytes are `Nat` values
below 256 and byte strings are `List Nat`; Python `str` release messages are
lists of Unicode code points, with `str.encode("utf-8")` modelled explicitly.

The cryptographic primitives from pycryptodome are modelled abstractly, each
by an executable function exposing exactly the interface properties the
verified claims depend on:

* AES-256-CBC: a key- and IV-dependent, length-preserving, invertible
  transformation on byte strings;
* SHA-256: a deterministic 32-byte digest of the input bytes;
* ECDSA P-256 with SHA-256 (`DSS`, mode `fips-186-3`, fixed-length r‖s
  encoding): a keypair is one abstract handle, signing is a deterministic
  function of handle and digest producing 64 bytes, and verification with the
  matching public key succeeds exactly on that signature.

None of the claims under verification concern the internals of these
primitives, only the byte ranges they are applied to and their round-trip
behaviour.
-/

namespace Cobblestone

/-- Decidable equality for `Except`, used to evaluate the fallible
operations on concrete inputs. -/
instance instDecEqExcept {ε α : Type} [DecidableEq ε] [DecidableEq α] :
    DecidableEq (Except ε α) := fun x y =>
  match x, y with
  | .ok a, .ok b =>
    if h : a = b then isTrue (by rw [h]) else isFalse (fun hc => h (Except.ok.inj hc))
  | .error a, .error b =>
    if h : a = b then isTrue (by rw [h]) else isFalse (fun hc => h (Except.error.inj hc))
  | .ok _, .error _ => isFalse (fun hc => Except.noConfusion hc)
  | .error _, .ok _ => isFalse (fun hc => Except.noConfusion hc)

/-! ## Constants of fw_protect.py and fw_update.py -/

def MAX_VERSION : Nat := 65535

def MAX_MESSAGE_SIZE : Nat := 1024

def MAX_FIRMWARE_SIZE : Nat := 32768

/-- `FRAME_SIZE = 256` in fw_update.py. -/
def FRAME_SIZE : Nat := 256

/-- `HEADER = 2` in fw_update.py: the length passed to the handshake reads. -/
def HEADER : Nat := 2

/-- `OK = b"O"`. -/
def OK : List Nat := [79]

/-- `ERROR = b"E"`. -/
def ERROR : List Nat := [69]

/-- `UPDATE = b"U"`. -/
def UPDATE : List Nat := [85]

/-- `META = b"M"`. -/
def META : List Nat := [77]

/-- `CHUNK = b"C"`. -/
def CHUNK : List Nat := [67]

/-! ## Little-endian 16-bit fields (struct "<H") -/

/-- `struct.pack("<H", n)`: two little-endian bytes of a 16-bit value. -/
def toLE16 (n : Nat) : List Nat := [n % 256, n / 256 % 256]

/-- `struct.unpack("<H", b)` on a two-byte string. -/
def parseLE16 (l : List Nat) : Nat :=
  match l with
  | [a, b] => a + 256 * b
  | _ => 0

/-! ## Python str.encode("utf-8") -/

/-- UTF-8 encoding of a single Unicode code point, as performed by Python's
`str.encode("utf-8")` on each character. -/
def utf8EncodeChar (c : Nat) : List Nat :=
  if c < 128 then [c]
  else if c < 2048 then [192 + c / 64, 128 + c % 64]
  else if c < 65536 then [224 + c / 4096, 128 + c / 64 % 64, 128 + c % 64]
  else [240 + c / 262144, 128 + c / 4096 % 64, 128 + c / 64 % 64, 128 + c % 64]

/-- `message.encode()`: the UTF-8 bytes of a list of code points.  Note that
`len(message)` in Python counts code points while `len(message.encode())`
counts these bytes. -/
def msgBytes (m : List Nat) : List Nat := m.flatMap utf8EncodeChar

/-- Code points a Python `str` can hold and `str.encode("utf-8")` accepts:
Unicode scalar values (below 0x110000 and not surrogates). -/
abbrev validCodepoint (c : Nat) : Prop := c < 1114112 ∧ (c < 55296 ∨ 57344 ≤ c)

/-- Decode one UTF-8 encoded code point from the front of a byte string
(with the standard range and continuation-byte checks): the code point and
the remaining bytes, or `none` on malformed input. -/
def utf8DecodeStep (l : List Nat) : Option (Nat × List Nat) :=
  match l with
  | [] => none
  | b :: rest =>
    if b < 128 then some (b, rest)
    else if b < 194 then none
    else if b < 224 then
      match rest with
      | b2 :: r =>
        if 128 ≤ b2 ∧ b2 < 192 then some ((b - 192) * 64 + (b2 - 128), r) else none
      | [] => none
    else if b < 240 then
      match rest with
      | b2 :: b3 :: r =>
        if (128 ≤ b2 ∧ b2 < 192) ∧ (128 ≤ b3 ∧ b3 < 192) then
          let c := (b - 224) * 4096 + (b2 - 128) * 64 + (b3 - 128)
          if 2048 ≤ c then some (c, r) else none
        else none
      | _ => none
    else if b < 245 then
      match rest with
      | b2 :: b3 :: b4 :: r =>
        if (128 ≤ b2 ∧ b2 < 192) ∧ (128 ≤ b3 ∧ b3 < 192) ∧ (128 ≤ b4 ∧ b4 < 192) then
          let c := (b - 240) * 262144 + (b2 - 128) * 4096 + (b3 - 128) * 64 + (b4 - 128)
          if 65536 ≤ c then some (c, r) else none
        else none
      | _ => none
    else none

/-- Fuel-bounded UTF-8 decoding loop; each decoded code point costs one unit
of fuel and at least one input byte, so the input length is enough fuel. -/
def utf8DecodeAux (fuel : Nat) (l : List Nat) : Option (List Nat) :=
  if l = [] then some []
  else
    match fuel with
    | 0 => none
    | fuel + 1 =>
      match utf8DecodeStep l with
      | none => none
      | some (c, r) => (utf8DecodeAux fuel r).map (c :: ·)

/-- UTF-8 decoding of a byte string back to code points; `none` on
malformed input. -/
def utf8Decode (l : List Nat) : Option (List Nat) := utf8DecodeAux l.length l

/-! ## PKCS#7 padding (Crypto.Util.Padding) -/

/-- `pad(data, 16)`: append `n` copies of the byte `n`, where
`n = 16 - len(data) % 16` (always between 1 and 16). -/
def pkcs7Pad (bs : List Nat) : List Nat :=
  bs ++ List.replicate (16 - bs.length % 16) (16 - bs.length % 16)

/-- `unpad(data, 16)`: check the length is a multiple of the block size and
that the last byte `n` is a valid padding count whose `n` trailing copies are
all present, then strip them. -/
def pkcs7Unpad (bs : List Nat) : Option (List Nat) :=
  if bs.length % 16 ≠ 0 then none
  else
    match bs.getLast? with
    | none => none
    | some n =>
      if n = 0 ∨ 16 < n ∨ bs.length < n then none
      else if bs.drop (bs.length - n) = List.replicate n n then
        some (bs.take (bs.length - n))
      else none

/-! ## Abstract models of the cryptographic primitives -/

/-- The key stream constant of the abstract AES-256-CBC model. -/
def aesShift (key iv : List Nat) : Nat := (key.sum + 2 * iv.sum + 1) % 256

/-- `AES.new(aes_key, AES.MODE_CBC, iv=iv).encrypt`: modelled abstractly as a
key- and IV-dependent, length-preserving, invertible byte transformation. -/
def aesEncrypt (key iv pt : List Nat) : List Nat :=
  pt.map (fun b => (b + aesShift key iv) % 256)

/-- The matching CBC decryption, inverse of `aesEncrypt` on byte strings. -/
def aesDecrypt (key iv ct : List Nat) : List Nat :=
  ct.map (fun b => (b + (256 - aesShift key iv)) % 256)

/-- `SHA256.new(bs)`: modelled abstractly as a deterministic 32-byte digest
of the input bytes. -/
def sha256 (bs : List Nat) : List Nat :=
  List.replicate 32 (bs.foldl (fun a b => (a * 31 + b + 7) % 65536) 9 % 256)

/-- `DSS.new(priv_key, mode="fips-186-3").sign(h)`: abstract ECDSA P-256
signing; a keypair is one abstract handle, and the signature is a
deterministic 64-byte function of the handle and the 32-byte digest. -/
def signModel (key : Nat) (digest : List Nat) : List Nat :=
  (digest ++ digest).map (fun b => (b + key + 3) % 256)

/-- `DSS.new(pub_key, "fips-186-3").verify(h, sig)`: succeeds exactly on the
signature produced with the matching private handle over the same digest. -/
def verifyModel (key : Nat) (digest sig : List Nat) : Bool :=
  decide (sig = signModel key digest)

/-- The key material read from `secret_build_output.txt`, `iv.txt` and
`ecc_public.raw`: 32-byte AES key, 16-byte IV, and the abstract handle of
the ECDSA keypair. -/
structure KeyMaterial where
  aesKey : List Nat
  iv : List Nat
  signKey : Nat

/-! ## fw_protect.py: protect_firmware -/

/-- The field named by a `SizeLimitExceeded` failure. -/
inductive SizeField
  | version
  | message
  | firmware
  deriving DecidableEq

/-- Failures of the bundler; the three `assert` statements of
`protect_firmware` are the spec's `SizeLimitExceeded { field }`. -/
inductive ProtectErr
  | sizeLimitExceeded (field : SizeField)
  deriving DecidableEq

/-- `metadata = struct.pack("<HHH", version, len(firmware), len(message))`:
the 6-byte bundle header of three little-endian 16-bit fields. -/
def bundleHeader (version fwLen msgLen : Nat) : List Nat :=
  toLE16 version ++ toLE16 fwLen ++ toLE16 msgLen

/-- `aes.encrypt(pad(firmware + message.encode() + b"\x00", 16))`: the
bundle's ciphertext — firmware ‖ encoded message ‖ one NUL byte, PKCS#7
padded to a 16-byte boundary, then encrypted under AES-256-CBC. -/
def bundleCiphertext (km : KeyMaterial) (firmware message : List Nat) : List Nat :=
  aesEncrypt km.aesKey km.iv (pkcs7Pad (firmware ++ msgBytes message ++ [0]))

/-- `protect_firmware` (src/tools/fw_protect.py): the pure core mapping
(firmware bytes, version, message code points, key material) to the
protected blob.  The three `assert`s are checked in source order, before the
key material is touched and before any cryptographic operation; then
`metadata = struct.pack("<HHH", version, len(firmware), len(message))`,
`blob = metadata + aes.encrypt(pad(firmware + message.encode() + b"\x00", 16))`
and the result is `signer.sign(SHA256.new(blob)) + blob`. -/
def protect_firmware (firmware : List Nat) (version : Nat) (message : List Nat)
    (km : KeyMaterial) : Except ProtectErr (List Nat) :=
  if MAX_VERSION < version then .error (.sizeLimitExceeded .version)
  else if MAX_MESSAGE_SIZE < message.length then .error (.sizeLimitExceeded .message)
  else if MAX_FIRMWARE_SIZE < firmware.length then .error (.sizeLimitExceeded .firmware)
  else
    let metadata := bundleHeader version firmware.length message.length
    let blob := metadata ++ bundleCiphertext km firmware message
    .ok (signModel km.signKey (sha256 blob) ++ blob)

/-! ## Bundle Codec: verify_and_decode (spec 4.1) -/

/-- Failures of `verify_and_decode`, from the spec's error taxonomy. -/
inductive DecodeErr
  | authenticationError
  | paddingError
  | integrityError
  deriving DecidableEq

/-- Modelled from the spec: `verify_and_decode` (spec §4.1, Bundle Codec) is
specified but not present under src/ — the repository holds only the encoder
(fw_protect.py) and the updater's client-side signature check (fw_update.py).
Faithful to the spec's words: split the bundle into signature (first 64
bytes), header (next 6) and ciphertext (remainder); verify the signature
against SHA-256 of `header ‖ ciphertext` (failure is `AuthenticationError`);
decrypt and strip PKCS#7 padding (failure is `PaddingError`); split off the
embedded NUL terminator to recover `firmware ‖ message`; cross-check the
recovered lengths against the header's `firmware_length` / `message_length`
fields (mismatch is `IntegrityError`). -/
def verify_and_decode (bundle : List Nat) (km : KeyMaterial) :
    Except DecodeErr (List Nat × Nat × List Nat) :=
  let signature := bundle.take 64
  let header := (bundle.drop 64).take 6
  let ciphertext := bundle.drop 70
  if verifyModel km.signKey (sha256 (header ++ ciphertext)) signature = false then
    .error .authenticationError
  else
    match pkcs7Unpad (aesDecrypt km.aesKey km.iv ciphertext) with
    | none => .error .paddingError
    | some p =>
      if p.getLast? ≠ some 0 then .error .integrityError
      else
        let body := p.dropLast
        let version := parseLE16 (header.take 2)
        let fwLen := parseLE16 ((header.drop 2).take 2)
        let msgLen := parseLE16 ((header.drop 4).take 2)
        let fw := body.take fwLen
        match utf8Decode (body.drop fwLen) with
        | none => .error .integrityError
        | some msg =>
          if fw.length = fwLen ∧ msg.length = msgLen then .ok (fw, version, msg)
          else .error .integrityError

/-! ## The duplex channel and the transfer session (fw_update.py)

The serial channel (`DomainSocketSerial`, whose source is not in the
repository) is a blocking duplex byte stream.  It is modelled by a queue of
device responses (`inp`, each element the bytes one `ser.read` call returns,
truncated to the requested count) and the trace of `ser.write` calls (`out`,
in order).  A read on an exhausted queue means the tool blocks forever on a
silent device; this is the explicit outcome `blocked`. -/

structure Chan where
  inp : List (List Nat)
  out : List (List Nat)
  deriving DecidableEq

/-- `ser.write(bs)`: append one write event to the trace. -/
def chanWrite (c : Chan) (bs : List Nat) : Chan :=
  ⟨c.inp, c.out ++ [bs]⟩

/-- Failures of the transfer session (fw_update.py raises `RuntimeError`
for all of them; the constructors follow the spec's taxonomy names). -/
inductive SessErr
  | blocked
  | structError
  | invalidVersionRequest
  | authenticationError
  | chunkRejected (idx : Nat)
  | finalAckRejected
  deriving DecidableEq

/-- `while ser.read(HEADER) != OK: ...` — the unbounded handshake poll.
Consumes responses until one equals the single byte `OK`; `none` when the
device never sends it (the tool then blocks forever). -/
def waitOKAux (inp : List (List Nat)) : Option (List (List Nat)) :=
  match inp with
  | [] => none
  | chunk :: rest => if chunk.take HEADER = OK then some rest else waitOKAux rest

/-- `while len(b) != 2: b = ser.read(HEADER)` — re-read until a full 2-byte
response arrives, discarding shorter ones. -/
def read2Aux (inp : List (List Nat)) : Option (List Nat × List (List Nat)) :=
  match inp with
  | [] => none
  | chunk :: rest =>
    if (chunk.take HEADER).length = 2 then some (chunk.take HEADER, rest)
    else read2Aux rest

/-- `send_metadata(ser, metadata, debug)` (src/tools/fw_update.py).  Its
`metadata` argument is the 70-byte `signature + metadata` slice passed by
`update`; the function unpacks version and size from bytes 64..68, rejects
version 0 unless `debug`, writes `META`, polls for `OK`, writes the whole
70-byte argument, then reads back three 2-byte echoes (version — where a
lone `ERROR` byte aborts —, size, message length) without comparing them to
anything, and returns `True`. -/
def send_metadata (metadata : List Nat) (debug : Bool) (c : Chan) :
    Except SessErr Bool × Chan :=
  -- struct.unpack("<HH", metadata[64:68]) needs exactly four bytes
  let slice := (metadata.drop 64).take 4
  if slice.length ≠ 4 then (.error .structError, c)
  else
    let version := parseLE16 (slice.take 2)
    if version = 0 ∧ debug = false then (.error .invalidVersionRequest, c)
    else
      let c1 := chanWrite c META
      match waitOKAux c1.inp with
      | none => (.error .blocked, ⟨[], c1.out⟩)
      | some rest =>
        let c2 := chanWrite ⟨rest, c1.out⟩ metadata
        match c2.inp with
        | [] => (.error .blocked, c2)
        | e1 :: rest1 =>
          let bv := e1.take 2
          if bv = ERROR then (.error .invalidVersionRequest, ⟨rest1, c2.out⟩)
          else if bv.length ≠ 2 then (.error .structError, ⟨rest1, c2.out⟩)
          else
            match read2Aux rest1 with
            | none => (.error .blocked, ⟨[], c2.out⟩)
            | some (_, rest2) =>
              match read2Aux rest2 with
              | none => (.error .blocked, ⟨[], c2.out⟩)
              | some (_, rest3) => (.ok true, ⟨rest3, c2.out⟩)

/-- `send_frame(ser, frame)` for data frame number `idx` (1-based): write
the frame, read one byte, and abort unless it is `OK`.  fw_update.py raises
`RuntimeError` there; the frame index recorded by the enclosing loop names
the spec's `ChunkRejected { index }`. -/
def send_frame (frame : List Nat) (idx : Nat) (c : Chan) :
    Except SessErr Unit × Chan :=
  let c1 := chanWrite c frame
  match c1.inp with
  | [] => (.error .blocked, c1)
  | chunk :: rest =>
    if chunk.take 1 = OK then (.ok (), ⟨rest, c1.out⟩)
    else (.error (.chunkRejected idx), ⟨rest, c1.out⟩)

/-- Fuel-bounded chunking loop; each emitted chunk consumes at least one
input byte and one unit of fuel, so the input length is enough fuel. -/
def chunksOfAux (fuel : Nat) (l : List Nat) : List (List Nat) :=
  if l = [] then []
  else
    match fuel with
    | 0 => []
    | fuel + 1 => l.take FRAME_SIZE :: chunksOfAux fuel (l.drop FRAME_SIZE)

/-- `firmware[frame_start : frame_start + FRAME_SIZE]` for each step of
`range(0, len(firmware), FRAME_SIZE)`: the payload split into 256-byte
chunks, the last possibly shorter. -/
def chunksOf (l : List Nat) : List (List Nat) := chunksOfAux l.length l

/-- `struct.pack(f"H{len(data)}s", length, data)`: native byte order on the
host running the tool (little-endian), no padding between the fields. -/
def packFrame (data : List Nat) : List Nat := toLE16 data.length ++ data

/-- The per-chunk loop body of `send_firmware`: send each chunk as a frame
and wait for its ACK, in order, one frame in flight at a time. -/
def sendFrames (ds : List (List Nat)) (idx : Nat) (c : Chan) :
    Except SessErr Unit × Chan :=
  match ds with
  | [] => (.ok (), c)
  | d :: rest =>
    match send_frame (packFrame d) (idx + 1) c with
    | (.ok _, c1) => sendFrames rest (idx + 1) c1
    | (.error e, c1) => (.error e, c1)

/-- `send_firmware(ser, firmware)` (src/tools/fw_update.py): write `CHUNK`,
poll for `OK`, send every 256-byte chunk as a frame (each followed by its
single-byte ACK wait), then write the zero-length terminator
`struct.pack(">H", 0)` and require a final `OK`. -/
def send_firmware (firmware : List Nat) (c : Chan) : Except SessErr Unit × Chan :=
  let c1 := chanWrite c CHUNK
  match waitOKAux c1.inp with
  | none => (.error .blocked, ⟨[], c1.out⟩)
  | some rest =>
    match sendFrames (chunksOf firmware) 0 ⟨rest, c1.out⟩ with
    | (.error e, c2) => (.error e, c2)
    | (.ok _, c2) =>
      let c3 := chanWrite c2 [0, 0]
      match c3.inp with
      | [] => (.error .blocked, c3)
      | chunk :: rest2 =>
        if chunk.take 1 = OK then (.ok (), ⟨rest2, c3.out⟩)
        else (.error .finalAckRejected, ⟨rest2, c3.out⟩)

/-- `update(ser, infile, debug)` (src/tools/fw_update.py): write `UPDATE`
and poll for `OK`; slice the blob into `signature = blob[0:64]`,
`metadata = blob[64:70]`, `firmware = blob[70:]`; verify the ECDSA signature
over `SHA256(metadata + firmware)` with the public key (failure raises —
the spec's `AuthenticationError`); then `send_metadata(ser, signature +
metadata, debug)` and `send_firmware(ser, firmware)`.  The interactive
boot prompt after the transfer is outside the session (spec §4.4). -/
def update (blob : List Nat) (km : KeyMaterial) (debug : Bool) (c : Chan) :
    Except SessErr Unit × Chan :=
  let c1 := chanWrite c UPDATE
  match waitOKAux c1.inp with
  | none => (.error .blocked, ⟨[], c1.out⟩)
  | some rest =>
    let c2 : Chan := ⟨rest, c1.out⟩
    let signature := blob.take 64
    let metadata := (blob.drop 64).take 6
    let firmware := blob.drop 70
    if verifyModel km.signKey (sha256 (metadata ++ firmware)) signature = false then
      (.error .authenticationError, c2)
    else
      match send_metadata (signature ++ metadata) debug c2 with
      | (.error e, c3) => (.error e, c3)
      | (.ok _, c3) =>
        match send_firmware firmware c3 with
        | (.error e, c4) => (.error e, c4)
        | (.ok _, c4) => (.ok (), c4)

/-! ## Basic lemmas about the field and primitive models -/

lemma toLE16_length (n : Nat) : (toLE16 n).length = 2 := rfl

lemma parseLE16_toLE16 {n : Nat} (h : n < 65536) : parseLE16 (toLE16 n) = n := by
  simp only [toLE16, parseLE16]
  omega

lemma utf8EncodeChar_length_pos (c : Nat) : 0 < (utf8EncodeChar c).length := by
  unfold utf8EncodeChar
  split
  · simp
  · split
    · simp
    · split <;> simp

lemma utf8EncodeChar_ne_nil (c : Nat) : utf8EncodeChar c ≠ [] := by
  have := utf8EncodeChar_length_pos c
  intro h
  rw [h] at this
  simp at this

lemma utf8EncodeChar_lt256 {c : Nat} (hc : c < 1114112) :
    ∀ b ∈ utf8EncodeChar c, b < 256 := by
  intro b hb
  unfold utf8EncodeChar at hb
  split at hb
  · simp at hb; omega
  · split at hb
    · simp at hb; omega
    · split at hb
      · simp at hb; omega
      · simp at hb; omega

lemma msgBytes_lt256 {m : List Nat} (hm : ∀ c ∈ m, c < 1114112) :
    ∀ b ∈ msgBytes m, b < 256 := by
  intro b hb
  simp only [msgBytes, List.mem_flatMap] at hb
  obtain ⟨c, hc, hbc⟩ := hb
  exact utf8EncodeChar_lt256 (hm c hc) b hbc

lemma length_le_msgBytes_length (m : List Nat) : m.length ≤ (msgBytes m).length := by
  induction m with
  | nil => simp [msgBytes]
  | cons c m ih =>
    simp only [msgBytes, List.flatMap_cons, List.length_append, List.length_cons]
    have := utf8EncodeChar_length_pos c
    simp only [msgBytes] at ih
    omega

lemma utf8DecodeStep_encodeChar {c : Nat} (hc : validCodepoint c) (rest : List Nat) :
    utf8DecodeStep (utf8EncodeChar c ++ rest) = some (c, rest) := by
  obtain ⟨h1, _⟩ := hc
  by_cases ha : c < 128
  · simp only [utf8EncodeChar, if_pos ha, List.cons_append, List.nil_append]
    simp only [utf8DecodeStep, if_pos ha]
  · by_cases hb : c < 2048
    · simp only [utf8EncodeChar, if_neg ha, if_pos hb, List.cons_append, List.nil_append]
      have e1 : ¬ 192 + c / 64 < 128 := by omega
      have e2 : ¬ 192 + c / 64 < 194 := by omega
      have e3 : 192 + c / 64 < 224 := by omega
      have e4 : 128 ≤ 128 + c % 64 ∧ 128 + c % 64 < 192 := by omega
      simp only [utf8DecodeStep, if_neg e1, if_neg e2, if_pos e3, if_pos e4]
      have e5 : (192 + c / 64 - 192) * 64 + (128 + c % 64 - 128) = c := by omega
      rw [e5]
    · by_cases hd : c < 65536
      · simp only [utf8EncodeChar, if_neg ha, if_neg hb, if_pos hd, List.cons_append,
          List.nil_append]
        have e1 : ¬ 224 + c / 4096 < 128 := by omega
        have e2 : ¬ 224 + c / 4096 < 194 := by omega
        have e3 : ¬ 224 + c / 4096 < 224 := by omega
        have e4 : 224 + c / 4096 < 240 := by omega
        have e5 : (128 ≤ 128 + c / 64 % 64 ∧ 128 + c / 64 % 64 < 192) ∧
            128 ≤ 128 + c % 64 ∧ 128 + c % 64 < 192 := by omega
        simp only [utf8DecodeStep, if_neg e1, if_neg e2, if_neg e3, if_pos e4, if_pos e5]
        have hrec : (224 + c / 4096 - 224) * 4096 + (128 + c / 64 % 64 - 128) * 64 +
            (128 + c % 64 - 128) = c := by omega
        rw [hrec]
        have e6 : 2048 ≤ c := by omega
        simp only [if_pos e6]
      · simp only [utf8EncodeChar, if_neg ha, if_neg hb, if_neg hd, List.cons_append,
          List.nil_append]
        have e1 : ¬ 240 + c / 262144 < 128 := by omega
        have e2 : ¬ 240 + c / 262144 < 194 := by omega
        have e3 : ¬ 240 + c / 262144 < 224 := by omega
        have e4 : ¬ 240 + c / 262144 < 240 := by omega
        have e5 : 240 + c / 262144 < 245 := by omega
        have e6 : (128 ≤ 128 + c / 4096 % 64 ∧ 128 + c / 4096 % 64 < 192) ∧
            (128 ≤ 128 + c / 64 % 64 ∧ 128 + c / 64 % 64 < 192) ∧
            128 ≤ 128 + c % 64 ∧ 128 + c % 64 < 192 := by omega
        simp only [utf8DecodeStep, if_neg e1, if_neg e2, if_neg e3, if_neg e4, if_pos e5,
          if_pos e6]
        have hrec : (240 + c / 262144 - 240) * 262144 + (128 + c / 4096 % 64 - 128) * 4096 +
            (128 + c / 64 % 64 - 128) * 64 + (128 + c % 64 - 128) = c := by omega
        rw [hrec]
        have e7 : 65536 ≤ c := by omega
        simp only [if_pos e7]

lemma msgBytes_cons (c : Nat) (m : List Nat) :
    msgBytes (c :: m) = utf8EncodeChar c ++ msgBytes m := rfl

lemma utf8DecodeAux_msgBytes {m : List Nat} (hm : ∀ c ∈ m, validCodepoint c) :
    ∀ fuel, m.length ≤ fuel → utf8DecodeAux fuel (msgBytes m) = some m := by
  induction m with
  | nil => intro fuel _; cases fuel <;> simp [msgBytes, utf8DecodeAux]
  | cons c m ih =>
    intro fuel hfuel
    have hc : validCodepoint c := hm c (List.mem_cons_self c m)
    have hrest : ∀ x ∈ m, validCodepoint x := fun x hx => hm x (List.mem_cons_of_mem c hx)
    match fuel with
    | 0 => simp at hfuel
    | fuel + 1 =>
      have hne : msgBytes (c :: m) ≠ [] := by
        rw [msgBytes_cons]
        intro h
        exact utf8EncodeChar_ne_nil c (List.append_eq_nil.mp h).1
      have hih : utf8DecodeAux fuel (msgBytes m) = some m := by
        apply ih hrest
        simp only [List.length_cons] at hfuel
        omega
      rw [utf8DecodeAux, if_neg hne, msgBytes_cons, utf8DecodeStep_encodeChar hc]
      show Option.map (fun x => c :: x) (utf8DecodeAux fuel (msgBytes m)) = some (c :: m)
      rw [hih]
      rfl

lemma utf8Decode_msgBytes {m : List Nat} (hm : ∀ c ∈ m, validCodepoint c) :
    utf8Decode (msgBytes m) = some m :=
  utf8DecodeAux_msgBytes hm (msgBytes m).length (length_le_msgBytes_length m)

/-! ## PKCS#7, AES model and signature model lemmas -/

lemma pkcs7Pad_length (bs : List Nat) :
    (pkcs7Pad bs).length = bs.length + (16 - bs.length % 16) := by
  simp [pkcs7Pad]

lemma pkcs7Unpad_pad (bs : List Nat) : pkcs7Unpad (pkcs7Pad bs) = some bs := by
  set n := 16 - bs.length % 16 with hn
  have hnlt : bs.length % 16 < 16 := Nat.mod_lt _ (by omega)
  have hn1 : 1 ≤ n ∧ n ≤ 16 := by omega
  have hlen : (pkcs7Pad bs).length = bs.length + n := pkcs7Pad_length bs
  have hmod : (bs.length + n) % 16 = 0 := by omega
  obtain ⟨m, hm⟩ : ∃ m, n = m + 1 := ⟨n - 1, by omega⟩
  have hsplit : pkcs7Pad bs = (bs ++ List.replicate m n) ++ [n] := by
    rw [pkcs7Pad, ← hn, hm, List.replicate_succ', List.append_assoc]
  have hlast : (pkcs7Pad bs).getLast? = some n := by
    rw [hsplit, List.getLast?_concat]
  have hdrop : (pkcs7Pad bs).drop bs.length = List.replicate n n := by
    rw [pkcs7Pad, ← hn, List.drop_left]
  have htake : (pkcs7Pad bs).take bs.length = bs := by
    rw [pkcs7Pad, ← hn, List.take_left]
  have h3 : bs.length + n - n = bs.length := by omega
  have h1 : ¬ (bs.length + n) % 16 ≠ 0 := by omega
  have h2 : ¬ (n = 0 ∨ 16 < n ∨ bs.length + n < n) := by omega
  rw [pkcs7Unpad, hlen, hlast]
  simp only [if_neg h1, if_neg h2, h3, hdrop, htake]
  simp

lemma pkcs7Pad_lt256 {bs : List Nat} (h : ∀ b ∈ bs, b < 256) :
    ∀ b ∈ pkcs7Pad bs, b < 256 := by
  intro b hb
  rw [pkcs7Pad] at hb
  rcases List.mem_append.mp hb with h1 | h2
  · exact h b h1
  · have := List.eq_of_mem_replicate h2
    omega

lemma aesEncrypt_length (key iv pt : List Nat) :
    (aesEncrypt key iv pt).length = pt.length := by
  simp [aesEncrypt]

lemma aesDecrypt_aesEncrypt {key iv pt : List Nat} (h : ∀ b ∈ pt, b < 256) :
    aesDecrypt key iv (aesEncrypt key iv pt) = pt := by
  have hs : aesShift key iv < 256 := Nat.mod_lt _ (by omega)
  rw [aesEncrypt, aesDecrypt, List.map_map]
  conv_rhs => rw [← List.map_id pt]
  apply List.map_congr_left
  intro b hb
  have hb256 := h b hb
  simp only [Function.comp_apply, id_eq]
  omega

lemma sha256_length (bs : List Nat) : (sha256 bs).length = 32 := by
  simp [sha256]

lemma signModel_length_of_digest {k : Nat} {d : List Nat} (h : d.length = 32) :
    (signModel k d).length = 64 := by
  simp [signModel, h]

lemma verifyModel_signModel (k : Nat) (d : List Nat) :
    verifyModel k d (signModel k d) = true := by
  simp [verifyModel]

/-! ## Shape of the protected bundle and decodability -/

lemma bundleHeader_length (v f m : Nat) : (bundleHeader v f m).length = 6 := by
  simp [bundleHeader, toLE16]

lemma protect_firmware_ok (km : KeyMaterial) {firmware message : List Nat} {version : Nat}
    (hv : version ≤ 65535) (hm : message.length ≤ 1024)
    (hf : firmware.length ≤ 32768) :
    protect_firmware firmware version message km =
      .ok (signModel km.signKey
          (sha256 (bundleHeader version firmware.length message.length ++
            bundleCiphertext km firmware message)) ++
        (bundleHeader version firmware.length message.length ++
          bundleCiphertext km firmware message)) := by
  have h1 : ¬ MAX_VERSION < version := by rw [MAX_VERSION]; omega
  have h2 : ¬ MAX_MESSAGE_SIZE < message.length := by rw [MAX_MESSAGE_SIZE]; omega
  have h3 : ¬ MAX_FIRMWARE_SIZE < firmware.length := by rw [MAX_FIRMWARE_SIZE]; omega
  rw [protect_firmware, if_neg h1, if_neg h2, if_neg h3]

lemma verify_and_decode_protect (km : KeyMaterial) {firmware message : List Nat}
    {version : Nat} (hfw : firmware.length ≤ 32768) (hfwb : ∀ b ∈ firmware, b < 256)
    (hmb : message.length ≤ 1024) (hmc : ∀ c ∈ message, validCodepoint c)
    (hv : version ≤ 65535) :
    verify_and_decode
      (signModel km.signKey
          (sha256 (bundleHeader version firmware.length message.length ++
            bundleCiphertext km firmware message)) ++
        (bundleHeader version firmware.length message.length ++
          bundleCiphertext km firmware message)) km =
      .ok (firmware, version, message) := by
  set hdr := bundleHeader version firmware.length message.length with hhdr
  set ct := bundleCiphertext km firmware message with hct
  set sig := signModel km.signKey (sha256 (hdr ++ ct)) with hsig
  have hsiglen : sig.length = 64 := signModel_length_of_digest (sha256_length _)
  have hhdrlen : hdr.length = 6 := bundleHeader_length _ _ _
  have htake64 : (sig ++ (hdr ++ ct)).take 64 = sig := by
    rw [← hsiglen, List.take_left]
  have hdrop64 : (sig ++ (hdr ++ ct)).drop 64 = hdr ++ ct := by
    rw [← hsiglen, List.drop_left]
  have htake6 : (hdr ++ ct).take 6 = hdr := by
    rw [← hhdrlen, List.take_left]
  have hdrop70 : (sig ++ (hdr ++ ct)).drop 70 = ct := by
    have h1 : (sig ++ (hdr ++ ct)).drop 70 = ((sig ++ (hdr ++ ct)).drop 64).drop 6 := by
      rw [List.drop_drop]
    rw [h1, hdrop64, ← hhdrlen, List.drop_left]
  -- decrypting the ciphertext gives back the padded plaintext
  have hver : verifyModel km.signKey (sha256 (hdr ++ ct)) sig = true := by
    rw [hsig]; exact verifyModel_signModel _ _
  have hplain : ∀ b ∈ pkcs7Pad (firmware ++ msgBytes message ++ [0]), b < 256 := by
    apply pkcs7Pad_lt256
    intro b hb
    rcases List.mem_append.mp hb with h | h
    · rcases List.mem_append.mp h with h | h
      · exact hfwb b h
      · exact msgBytes_lt256 (fun c hc => (hmc c hc).1) b h
    · simp at h; omega
  have hdec : aesDecrypt km.aesKey km.iv ct = pkcs7Pad (firmware ++ msgBytes message ++ [0]) := by
    rw [hct, bundleCiphertext, aesDecrypt_aesEncrypt hplain]
  have hunpad : pkcs7Unpad (aesDecrypt km.aesKey km.iv ct) =
      some (firmware ++ msgBytes message ++ [0]) := by
    rw [hdec, pkcs7Unpad_pad]
  -- the recovered plaintext ends in the NUL terminator
  have hlast : (firmware ++ msgBytes message ++ [0]).getLast? = some 0 :=
    List.getLast?_concat _
  have hdroplast : (firmware ++ msgBytes message ++ [0]).dropLast =
      firmware ++ msgBytes message := List.dropLast_concat
  -- the header fields parse back to the three original values
  have hv16 : version < 65536 := by omega
  have hf16 : firmware.length < 65536 := by omega
  have hm16 : message.length < 65536 := by omega
  have htk2 : hdr.take 2 = toLE16 version := by
    rw [hhdr]; simp [bundleHeader, toLE16]
  have hdk2 : (hdr.drop 2).take 2 = toLE16 firmware.length := by
    rw [hhdr]; simp [bundleHeader, toLE16]
  have hdk4 : (hdr.drop 4).take 2 = toLE16 message.length := by
    rw [hhdr]; simp [bundleHeader, toLE16]
  rw [verify_and_decode]
  simp only [htake64, hdrop64, htake6, hdrop70, hunpad, hlast, htk2, hdk2, hdk4,
    parseLE16_toLE16 hv16, parseLE16_toLE16 hf16, parseLE16_toLE16 hm16,
    hver, hdroplast]
  simp only [List.take_left, List.drop_left, utf8Decode_msgBytes hmc]
  simp

/-! ## Transfer-session lemmas -/

lemma chanWrite_inp (c : Chan) (bs : List Nat) : (chanWrite c bs).inp = c.inp := rfl

lemma chanWrite_out (c : Chan) (bs : List Nat) :
    (chanWrite c bs).out = c.out ++ [bs] := rfl

lemma replicate_add_two {α : Type} (n : Nat) (x : α) :
    List.replicate (n + 2) x = x :: (List.replicate n x ++ [x]) := by
  rw [List.replicate_succ, List.replicate_succ']

lemma waitOKAux_cons_ok (rest : List (List Nat)) :
    waitOKAux ([79] :: rest) = some rest := by
  rw [waitOKAux]
  simp [HEADER, OK]

lemma sendFrames_ok (ds : List (List Nat)) :
    ∀ (idx : Nat) (out0 rest : List (List Nat)),
    sendFrames ds idx ⟨List.replicate ds.length [79] ++ rest, out0⟩ =
      (.ok (), ⟨rest, out0 ++ ds.map packFrame⟩) := by
  induction ds with
  | nil =>
    intro idx out0 rest
    simp [sendFrames]
  | cons d ds ih =>
    intro idx out0 rest
    have hrep : List.replicate (d :: ds).length ([79] : List Nat) ++ rest =
        [79] :: (List.replicate ds.length [79] ++ rest) := by
      simp [List.replicate_succ]
    rw [hrep, sendFrames]
    have hsf : send_frame (packFrame d) (idx + 1)
        ⟨[79] :: (List.replicate ds.length [79] ++ rest), out0⟩ =
        (.ok (), ⟨List.replicate ds.length [79] ++ rest, out0 ++ [packFrame d]⟩) := by
      simp [send_frame, chanWrite, OK]
    rw [hsf]
    show sendFrames ds (idx + 1)
        ⟨List.replicate ds.length [79] ++ rest, out0 ++ [packFrame d]⟩ = _
    rw [ih (idx + 1) (out0 ++ [packFrame d]) rest]
    simp

lemma sendFrames_reject (k : Nat) :
    ∀ (ds : List (List Nat)) (idx b : Nat) (rest out0 : List (List Nat)),
    k < ds.length → b ≠ 79 →
    sendFrames ds idx ⟨List.replicate k [79] ++ [b] :: rest, out0⟩ =
      (.error (.chunkRejected (idx + k + 1)),
        ⟨rest, out0 ++ (ds.map packFrame).take (k + 1)⟩) := by
  induction k with
  | zero =>
    intro ds idx b rest out0 hk hb
    cases ds with
    | nil => simp at hk
    | cons d ds =>
      simp only [List.replicate_zero, List.nil_append]
      rw [sendFrames]
      have hne : ¬ (([b] : List Nat) = OK) := by
        simp [OK]
        omega
      have hsf : send_frame (packFrame d) (idx + 1) ⟨[b] :: rest, out0⟩ =
          (.error (.chunkRejected (idx + 1)), ⟨rest, out0 ++ [packFrame d]⟩) := by
        simp [send_frame, chanWrite, hne]
      rw [hsf]
      simp
  | succ k ih =>
    intro ds idx b rest out0 hk hb
    cases ds with
    | nil => simp at hk
    | cons d ds =>
      have hrep : List.replicate (k + 1) ([79] : List Nat) ++ [b] :: rest =
          [79] :: (List.replicate k [79] ++ [b] :: rest) := by
        simp [List.replicate_succ]
      rw [hrep, sendFrames]
      have hsf : send_frame (packFrame d) (idx + 1)
          ⟨[79] :: (List.replicate k [79] ++ [b] :: rest), out0⟩ =
          (.ok (), ⟨List.replicate k [79] ++ [b] :: rest, out0 ++ [packFrame d]⟩) := by
        simp [send_frame, chanWrite, OK]
      rw [hsf]
      show sendFrames ds (idx + 1)
          ⟨List.replicate k [79] ++ [b] :: rest, out0 ++ [packFrame d]⟩ = _
      have hk' : k < ds.length := by simp at hk; omega
      rw [ih ds (idx + 1) b rest (out0 ++ [packFrame d]) hk' hb]
      have harith : idx + 1 + k + 1 = idx + (k + 1) + 1 := by omega
      rw [harith]
      simp

lemma send_firmware_ok (payload : List Nat) (out0 : List (List Nat)) :
    send_firmware payload
      ⟨List.replicate ((chunksOf payload).length + 2) [79], out0⟩ =
      (.ok (), ⟨[], out0 ++ [CHUNK] ++ (chunksOf payload).map packFrame ++ [[0, 0]]⟩) := by
  rw [send_firmware]
  simp only [chanWrite_inp, chanWrite_out, replicate_add_two, waitOKAux_cons_ok]
  simp only [sendFrames_ok (chunksOf payload) 0 (out0 ++ [CHUNK]) [[79]]]
  simp [chanWrite, OK]

lemma send_firmware_reject (payload : List Nat) (k b : Nat)
    (rest out0 : List (List Nat)) (hk : k < (chunksOf payload).length)
    (hb : b ≠ 79) :
    send_firmware payload ⟨[79] :: (List.replicate k [79] ++ [b] :: rest), out0⟩ =
      (.error (.chunkRejected (k + 1)),
        ⟨rest, out0 ++ [CHUNK] ++ ((chunksOf payload).map packFrame).take (k + 1)⟩) := by
  rw [send_firmware]
  simp only [chanWrite_inp, chanWrite_out, waitOKAux_cons_ok]
  simp only [sendFrames_reject k (chunksOf payload) 0 b rest (out0 ++ [CHUNK]) hk hb]
  simp

lemma take_eq_self_of_length_two {e : List Nat} (he : e.length = 2) : e.take 2 = e := by
  apply List.take_of_length_le
  omega

lemma send_metadata_run (md : List Nat) (debug : Bool) (e1 e2 e3 : List Nat)
    (out0 rest : List (List Nat)) (hlen : 68 ≤ md.length)
    (hv : ¬ (parseLE16 ((md.drop 64).take 2) = 0 ∧ debug = false))
    (he1 : e1.length = 2) (he2 : e2.length = 2) (he3 : e3.length = 2) :
    send_metadata md debug ⟨[79] :: e1 :: e2 :: e3 :: rest, out0⟩ =
      (.ok true, ⟨rest, out0 ++ [META, md]⟩) := by
  have hslice : ((md.drop 64).take 4).length = 4 := by
    simp [List.length_take, List.length_drop]
    omega
  have htt : ((md.drop 64).take 4).take 2 = (md.drop 64).take 2 := by
    simp [List.take_take]
  rw [send_metadata, if_neg (by omega), htt, if_neg hv]
  simp only [chanWrite_inp, chanWrite_out, waitOKAux_cons_ok]
  have he1' : e1.take 2 = e1 := take_eq_self_of_length_two he1
  have hne : ¬ (e1.take 2 = ERROR) := by
    rw [he1']
    intro h
    rw [h] at he1
    simp [ERROR] at he1
  have hl2 : ¬ ((e1.take 2).length ≠ 2) := by rw [he1', he1]; omega
  have hr2 : read2Aux (e2 :: e3 :: rest) = some (e2, e3 :: rest) := by
    rw [read2Aux]
    simp [HEADER, take_eq_self_of_length_two he2, he2]
  have hr3 : read2Aux (e3 :: rest) = some (e3, rest) := by
    rw [read2Aux]
    simp [HEADER, take_eq_self_of_length_two he3, he3]
  simp only [if_neg hne, if_neg hl2, hr2, hr3]
  simp [chanWrite]

lemma send_metadata_blocked_before_payload (md : List Nat) (debug : Bool)
    (out0 : List (List Nat)) (hlen : 68 ≤ md.length)
    (hv : ¬ (parseLE16 ((md.drop 64).take 2) = 0 ∧ debug = false)) :
    send_metadata md debug ⟨[], out0⟩ = (.error .blocked, ⟨[], out0 ++ [META]⟩) := by
  have hslice : ((md.drop 64).take 4).length = 4 := by
    simp [List.length_take, List.length_drop]
    omega
  have htt : ((md.drop 64).take 4).take 2 = (md.drop 64).take 2 := by
    simp [List.take_take]
  rw [send_metadata, if_neg (by omega), htt, if_neg hv]
  simp only [chanWrite_inp, chanWrite_out]
  rw [show waitOKAux [] = none from rfl]

lemma send_metadata_error_echo (md : List Nat) (debug : Bool)
    (out0 rest : List (List Nat)) (hlen : 68 ≤ md.length)
    (hv : ¬ (parseLE16 ((md.drop 64).take 2) = 0 ∧ debug = false)) :
    send_metadata md debug ⟨[79] :: [69] :: rest, out0⟩ =
      (.error .invalidVersionRequest, ⟨rest, out0 ++ [META, md]⟩) := by
  have hslice : ((md.drop 64).take 4).length = 4 := by
    simp [List.length_take, List.length_drop]
    omega
  have htt : ((md.drop 64).take 4).take 2 = (md.drop 64).take 2 := by
    simp [List.take_take]
  rw [send_metadata, if_neg (by omega), htt, if_neg hv]
  simp only [chanWrite_inp, chanWrite_out, waitOKAux_cons_ok]
  have herr : ([69] : List Nat).take 2 = ERROR := by simp [ERROR]
  simp only [if_pos herr]
  simp [chanWrite]

lemma send_metadata_rejects_v0 (md : List Nat) (c : Chan) (hlen : 68 ≤ md.length)
    (h0 : parseLE16 ((md.drop 64).take 2) = 0) :
    send_metadata md false c = (.error .invalidVersionRequest, c) := by
  have hslice : ((md.drop 64).take 4).length = 4 := by
    simp [List.length_take, List.length_drop]
    omega
  have htt : ((md.drop 64).take 4).take 2 = (md.drop 64).take 2 := by
    simp [List.take_take]
  rw [send_metadata, if_neg (by omega), htt, if_pos ⟨h0, rfl⟩]

lemma update_auth_fail (blob : List Nat) (km : KeyMaterial) (debug : Bool)
    (c : Chan) (rest : List (List Nat)) (hws : waitOKAux c.inp = some rest)
    (hver : verifyModel km.signKey
      (sha256 ((blob.drop 64).take 6 ++ blob.drop 70)) (blob.take 64) = false) :
    update blob km debug c = (.error .authenticationError, ⟨rest, c.out ++ [UPDATE]⟩) := by
  rw [update]
  simp only [chanWrite_inp, chanWrite_out, hws, if_pos hver]

/-! ## Chunking lemmas -/

lemma chunksOfAux_fuel (f1 : Nat) :
    ∀ (f2 : Nat) (l : List Nat), l.length ≤ f1 → l.length ≤ f2 →
      chunksOfAux f1 l = chunksOfAux f2 l := by
  induction f1 with
  | zero =>
    intro f2 l h1 h2
    have hnil : l = [] := List.eq_nil_of_length_eq_zero (by omega)
    rw [hnil, chunksOfAux.eq_def, chunksOfAux.eq_def]
    simp
  | succ f1 ih =>
    intro f2 l h1 h2
    by_cases h : l = []
    · rw [h, chunksOfAux.eq_def, chunksOfAux.eq_def]
      simp
    · have hpos : 0 < l.length := List.length_pos.mpr h
      obtain ⟨g, hg⟩ : ∃ g, f2 = g + 1 := ⟨f2 - 1, by omega⟩
      rw [hg, chunksOfAux.eq_def]
      conv_rhs => rw [chunksOfAux.eq_def]
      simp only [if_neg h]
      show l.take FRAME_SIZE :: chunksOfAux f1 (l.drop FRAME_SIZE) =
        l.take FRAME_SIZE :: chunksOfAux g (l.drop FRAME_SIZE)
      have hd1 : (l.drop FRAME_SIZE).length ≤ f1 := by
        rw [List.length_drop]
        simp only [FRAME_SIZE]
        omega
      have hd2 : (l.drop FRAME_SIZE).length ≤ g := by
        rw [List.length_drop]
        simp only [FRAME_SIZE]
        omega
      rw [ih g (l.drop FRAME_SIZE) hd1 hd2]

lemma chunksOf_nil : chunksOf [] = [] := rfl

lemma chunksOf_cons {l : List Nat} (h : l ≠ []) :
    chunksOf l = l.take FRAME_SIZE :: chunksOf (l.drop FRAME_SIZE) := by
  obtain ⟨k, hk⟩ : ∃ k, l.length = k + 1 :=
    ⟨l.length - 1, by have := List.length_pos.mpr h; omega⟩
  rw [chunksOf, hk, chunksOfAux.eq_def]
  simp only [if_neg h]
  show l.take FRAME_SIZE :: chunksOfAux k (l.drop FRAME_SIZE) = _
  have hdrop : (l.drop FRAME_SIZE).length ≤ k := by
    rw [List.length_drop]
    simp only [FRAME_SIZE]
    omega
  rw [chunksOf, chunksOfAux_fuel k (l.drop FRAME_SIZE).length (l.drop FRAME_SIZE) hdrop le_rfl]

lemma chunksOf_length_aux (n : Nat) :
    ∀ (l : List Nat), l.length ≤ n → (chunksOf l).length = (l.length + 255) / 256 := by
  induction n with
  | zero =>
    intro l hl
    have : l = [] := List.eq_nil_of_length_eq_zero (by omega)
    rw [this, chunksOf_nil]
    simp
  | succ n ih =>
    intro l hl
    by_cases h : l = []
    · rw [h, chunksOf_nil]
      simp
    · have hpos : 0 < l.length := List.length_pos.mpr h
      rw [chunksOf_cons h, List.length_cons,
        ih (l.drop FRAME_SIZE) (by rw [List.length_drop]; simp only [FRAME_SIZE]; omega)]
      rw [List.length_drop]
      simp only [FRAME_SIZE]
      omega

lemma chunksOf_length (l : List Nat) :
    (chunksOf l).length = (l.length + 255) / 256 :=
  chunksOf_length_aux l.length l le_rfl

lemma chunksOf_flatten_aux (n : Nat) :
    ∀ (l : List Nat), l.length ≤ n → (chunksOf l).flatten = l := by
  induction n with
  | zero =>
    intro l hl
    have : l = [] := List.eq_nil_of_length_eq_zero (by omega)
    rw [this, chunksOf_nil]
    rfl
  | succ n ih =>
    intro l hl
    by_cases h : l = []
    · rw [h, chunksOf_nil]
      rfl
    · have hpos : 0 < l.length := List.length_pos.mpr h
      rw [chunksOf_cons h, List.flatten_cons,
        ih (l.drop FRAME_SIZE) (by rw [List.length_drop]; simp only [FRAME_SIZE]; omega),
        List.take_append_drop]

lemma chunksOf_flatten (l : List Nat) : (chunksOf l).flatten = l :=
  chunksOf_flatten_aux l.length l le_rfl

lemma chunksOf_size_le_aux (n : Nat) :
    ∀ (l : List Nat), l.length ≤ n → ∀ d ∈ chunksOf l, d.length ≤ FRAME_SIZE := by
  induction n with
  | zero =>
    intro l hl
    have : l = [] := List.eq_nil_of_length_eq_zero (by omega)
    rw [this, chunksOf_nil]
    simp
  | succ n ih =>
    intro l hl
    by_cases h : l = []
    · rw [h, chunksOf_nil]
      simp
    · have hpos : 0 < l.length := List.length_pos.mpr h
      rw [chunksOf_cons h]
      intro d hd
      rcases List.mem_cons.mp hd with h1 | h1
      · rw [h1]
        simp [List.length_take]
      · exact ih (l.drop FRAME_SIZE)
          (by rw [List.length_drop]; simp only [FRAME_SIZE]; omega) d h1

lemma chunksOf_size_le (l : List Nat) : ∀ d ∈ chunksOf l, d.length ≤ FRAME_SIZE :=
  chunksOf_size_le_aux l.length l le_rfl

/-! ## The claims -/

/-- C1: Round-trip — for every firmware of at most 32768 bytes, every
message whose UTF-8 encoding is at most 1024 bytes, and every version in
[0, 65535], the bundle produced by `protect_firmware` (encode), passed to
`verify_and_decode` with the matching symmetric key, IV and public key,
succeeds and returns exactly the original (firmware, version, message). -/
theorem C1_round_trip (firmware message : List Nat) (version : Nat) (km : KeyMaterial)
    (hfw : firmware.length ≤ 32768) (hfwb : ∀ b ∈ firmware, b < 256)
    (hmb : (msgBytes message).length ≤ 1024) (hmc : ∀ c ∈ message, validCodepoint c)
    (hv : version ≤ 65535) :
    ∃ bundle, protect_firmware firmware version message km = Except.ok bundle ∧
      verify_and_decode bundle km = Except.ok (firmware, version, message) := by
  have hm : message.length ≤ 1024 := le_trans (length_le_msgBytes_length message) hmb
  exact ⟨_, protect_firmware_ok km hv hm hfw,
    verify_and_decode_protect km hfw hfwb hm hmc hv⟩

/-- Witness for C1 at a concrete firmware, version and message. -/
theorem C1_round_trip_witness :
    ∃ bundle,
      protect_firmware [1, 2, 3] 7 [104, 105]
        ⟨List.replicate 32 0, List.replicate 16 0, 1⟩ = Except.ok bundle ∧
      verify_and_decode bundle ⟨List.replicate 32 0, List.replicate 16 0, 1⟩ =
        Except.ok ([1, 2, 3], 7, [104, 105]) :=
  C1_round_trip [1, 2, 3] [104, 105] 7 ⟨List.replicate 32 0, List.replicate 16 0, 1⟩
    (by decide) (by decide) (by decide) (by decide) (by decide)

/-- C2 as stated is false on the code: at a concrete invalid bundle (182
zero bytes, whose all-zero signature does not verify) the session still
writes the begin-update token `b"U"` to the channel before aborting with
`AuthenticationError` — fw_update.py writes `UPDATE` and polls for `OK`
before it parses and verifies the blob, so the claim that verification
failure "sends nothing at all to the device" fails. -/
theorem C2_counterexample :
    update (List.replicate 182 0) ⟨List.replicate 32 0, List.replicate 16 0, 1⟩ false
        ⟨[[79]], []⟩ =
      (Except.error SessErr.authenticationError, ⟨[], [[85]]⟩) ∧
    ([[85]] : List (List Nat)) ≠ [] :=
  ⟨by decide, by decide⟩

/-- C2 (amended): the session verifies the bundle's embedded 64-byte
signature after the begin-update handshake (one `UPDATE` control byte
written, one OK response consumed) but before the metadata exchange; if
verification fails it aborts with `AuthenticationError` having written
exactly the single begin-update token — no signature, metadata or firmware
bytes are ever sent. -/
theorem C2_pretransfer_check (blob : List Nat) (km : KeyMaterial) (debug : Bool)
    (c : Chan) (rest : List (List Nat)) (hws : waitOKAux c.inp = some rest)
    (hver : verifyModel km.signKey
      (sha256 ((blob.drop 64).take 6 ++ blob.drop 70)) (blob.take 64) = false) :
    update blob km debug c =
      (.error .authenticationError, ⟨rest, c.out ++ [UPDATE]⟩) :=
  update_auth_fail blob km debug c rest hws hver

/-- Witness for the amended C2 at a concrete invalid bundle. -/
theorem C2_pretransfer_check_witness :
    update (List.replicate 182 0) ⟨List.replicate 32 1, List.replicate 16 0, 2⟩ false
        ⟨[[79]], [[3]]⟩ =
      (.error .authenticationError, ⟨[], [[3], [85]]⟩) :=
  C2_pretransfer_check (List.replicate 182 0) ⟨List.replicate 32 1, List.replicate 16 0, 2⟩
    false ⟨[[79]], [[3]]⟩ [] (by decide) (by decide)

/-- C3: Bundle layout — for every in-range input the bundle is exactly
signature (64 bytes) ‖ header (6 bytes: version, firmware_length,
message_length, each little-endian uint16) ‖ AES-256-CBC ciphertext of
firmware ‖ encoded message ‖ one NUL byte, PKCS#7-padded to a 16-byte
boundary; and `encode(firmware=100 bytes of 0x01, version=3,
message="hello")` yields a bundle of exactly 182 bytes. -/
theorem C3_bundle_layout :
    (∀ (firmware message : List Nat) (version : Nat) (km : KeyMaterial),
      version ≤ 65535 → message.length ≤ 1024 → firmware.length ≤ 32768 →
      protect_firmware firmware version message km =
        .ok (signModel km.signKey
            (sha256 (bundleHeader version firmware.length message.length ++
              bundleCiphertext km firmware message)) ++
          (bundleHeader version firmware.length message.length ++
            bundleCiphertext km firmware message)) ∧
      (signModel km.signKey
          (sha256 (bundleHeader version firmware.length message.length ++
            bundleCiphertext km firmware message))).length = 64 ∧
      (bundleHeader version firmware.length message.length).length = 6 ∧
      bundleHeader version firmware.length message.length =
        toLE16 version ++ toLE16 firmware.length ++ toLE16 message.length ∧
      bundleCiphertext km firmware message =
        aesEncrypt km.aesKey km.iv (pkcs7Pad (firmware ++ msgBytes message ++ [0])) ∧
      (bundleCiphertext km firmware message).length =
        (firmware.length + (msgBytes message).length + 1) +
          (16 - (firmware.length + (msgBytes message).length + 1) % 16)) ∧
    (∀ km : KeyMaterial,
      ∃ bundle,
        protect_firmware (List.replicate 100 1) 3 [104, 101, 108, 108, 111] km =
          .ok bundle ∧ bundle.length = 182) := by
  constructor
  · intro firmware message version km hv hm hf
    refine ⟨protect_firmware_ok km hv hm hf,
      signModel_length_of_digest (sha256_length _), bundleHeader_length _ _ _, rfl, rfl, ?_⟩
    have hplen : (firmware ++ msgBytes message ++ [0]).length =
        firmware.length + (msgBytes message).length + 1 := by
      simp
      omega
    rw [bundleCiphertext, aesEncrypt_length, pkcs7Pad_length, hplen]
  · intro km
    refine ⟨_, protect_firmware_ok km (by omega) (by simp) (by simp), ?_⟩
    have h1 : (signModel km.signKey
        (sha256 (bundleHeader 3 (List.replicate 100 (1:Nat)).length
            [104, 101, 108, 108, 111].length ++
          bundleCiphertext km (List.replicate 100 1) [104, 101, 108, 108, 111]))).length
        = 64 := signModel_length_of_digest (sha256_length _)
    have h2 := bundleHeader_length 3 (List.replicate 100 (1:Nat)).length
      [104, 101, 108, 108, 111].length
    have h3 : (bundleCiphertext km (List.replicate 100 1)
        [104, 101, 108, 108, 111]).length = 112 := by
      rw [bundleCiphertext, aesEncrypt_length, pkcs7Pad_length]
      have hmsg : (msgBytes [104, 101, 108, 108, 111]).length = 5 := rfl
      simp only [List.length_append, List.length_replicate, List.length_cons,
        List.length_nil, hmsg]
    rw [List.length_append, List.length_append, h1, h2, h3]

/-- Witness for C3 at concrete inputs: the scenario bundle has 182 bytes. -/
theorem C3_bundle_layout_witness :
    ∃ bundle,
      protect_firmware (List.replicate 100 1) 3 [104, 101, 108, 108, 111]
        ⟨List.replicate 32 0, List.replicate 16 0, 1⟩ = .ok bundle ∧
      bundle.length = 182 :=
  C3_bundle_layout.2 ⟨List.replicate 32 0, List.replicate 16 0, 1⟩

/-- C4: Signature domain — for every bundle produced by `protect_firmware`,
the signature (first 64 bytes) is the ECDSA signature over the SHA-256
digest of exactly header ‖ ciphertext, i.e. of the bundle's bytes from
offset 64 to the end, and never over any plaintext bytes; and the updater's
client-side check in `update` hashes `metadata + firmware`, which for every
blob equals exactly the blob's bytes from offset 64 to the end, so a blob
whose first 64 bytes fail to verify against that digest aborts the session
with `AuthenticationError`. -/
theorem C4_signature_domain :
    (∀ (firmware message : List Nat) (version : Nat) (km : KeyMaterial),
      version ≤ 65535 → message.length ≤ 1024 → firmware.length ≤ 32768 →
      ∃ bundle, protect_firmware firmware version message km = .ok bundle ∧
        bundle.take 64 = signModel km.signKey (sha256 (bundle.drop 64)) ∧
        bundle.drop 64 = bundleHeader version firmware.length message.length ++
          bundleCiphertext km firmware message) ∧
    (∀ blob : List Nat, (blob.drop 64).take 6 ++ blob.drop 70 = blob.drop 64) ∧
    (∀ (blob : List Nat) (km : KeyMaterial) (debug : Bool) (c : Chan)
        (rest : List (List Nat)), waitOKAux c.inp = some rest →
      verifyModel km.signKey (sha256 (blob.drop 64)) (blob.take 64) = false →
      update blob km debug c =
        (.error .authenticationError, ⟨rest, c.out ++ [UPDATE]⟩)) := by
  have hslice : ∀ blob : List Nat, (blob.drop 64).take 6 ++ blob.drop 70 = blob.drop 64 := by
    intro blob
    have h1 : blob.drop 70 = (blob.drop 64).drop 6 := by
      rw [List.drop_drop]
    rw [h1, List.take_append_drop]
  refine ⟨?_, hslice, ?_⟩
  · intro firmware message version km hv hm hf
    refine ⟨_, protect_firmware_ok km hv hm hf, ?_, ?_⟩
    · set hdr := bundleHeader version firmware.length message.length
      set ct := bundleCiphertext km firmware message
      set sig := signModel km.signKey (sha256 (hdr ++ ct)) with hsig
      have hsiglen : sig.length = 64 := signModel_length_of_digest (sha256_length _)
      have htake : (sig ++ (hdr ++ ct)).take 64 = sig := by
        rw [← hsiglen, List.take_left]
      have hdrop : (sig ++ (hdr ++ ct)).drop 64 = hdr ++ ct := by
        rw [← hsiglen, List.drop_left]
      rw [htake, hdrop]
    · set hdr := bundleHeader version firmware.length message.length
      set ct := bundleCiphertext km firmware message
      set sig := signModel km.signKey (sha256 (hdr ++ ct)) with hsig
      have hsiglen : sig.length = 64 := signModel_length_of_digest (sha256_length _)
      rw [← hsiglen, List.drop_left]
  · intro blob km debug c rest hws hver
    apply update_auth_fail blob km debug c rest hws
    rw [hslice blob]
    exact hver

/-- Witness for C4 at a concrete bundle. -/
theorem C4_signature_domain_witness :
    ∃ bundle,
      protect_firmware [9, 8, 7] 2 [104] ⟨List.replicate 32 0, List.replicate 16 0, 1⟩ =
        .ok bundle ∧
      bundle.take 64 = signModel 1 (sha256 (bundle.drop 64)) ∧
      bundle.drop 64 = bundleHeader 2 3 1 ++
        bundleCiphertext ⟨List.replicate 32 0, List.replicate 16 0, 1⟩ [9, 8, 7] [104] :=
  C4_signature_domain.1 [9, 8, 7] [104] 2 ⟨List.replicate 32 0, List.replicate 16 0, 1⟩
    (by decide) (by decide) (by decide)

lemma msgBytes_append (a b : List Nat) : msgBytes (a ++ b) = msgBytes a ++ msgBytes b := by
  simp [msgBytes]

lemma length_msgBytes_replicate (n c : Nat) :
    (msgBytes (List.replicate n c)).length = n * (utf8EncodeChar c).length := by
  induction n with
  | zero => simp [msgBytes]
  | succ n ih =>
    rw [List.replicate_succ, msgBytes_cons, List.length_append, ih]
    ring

/-- C5 as stated is false on the code: the message limit in
`protect_firmware` is `assert len(message) <= 1024`, which counts code
points of the Python `str`, not encoded bytes.  The concrete message of 512
copies of U+00E9 (each 2 UTF-8 bytes) followed by "a" has 513 code points
but an encoded length of exactly 1025 bytes, and `protect_firmware`
nevertheless succeeds instead of failing with `SizeLimitExceeded`. -/
theorem C5_counterexample :
    (msgBytes (List.replicate 512 233 ++ [97])).length = 1025 ∧
    (protect_firmware [1, 2, 3, 4] 1 (List.replicate 512 233 ++ [97])
      ⟨List.replicate 32 0, List.replicate 16 0, 1⟩).isOk = true := by
  constructor
  · rw [msgBytes_append, List.length_append, length_msgBytes_replicate]
    have h1 : (utf8EncodeChar 233).length = 2 := rfl
    have h2 : (msgBytes [97]).length = 1 := rfl
    rw [h1, h2]
  · have hm : (List.replicate 512 233 ++ [97]).length ≤ 1024 := by simp
    rw [protect_firmware_ok _ (by omega) hm (by simp)]
    rfl

/-- C5 (amended): `protect_firmware` fails with `SizeLimitExceeded` for
`len(firmware) = 32769` and for a message of 1025 code points, and succeeds
at the exact boundaries `len(firmware) = 32768` and message length 1024 —
the message limit being on the message's code-point count (Python
`len(message)`), not its encoded byte length; every violation fails for
every key material alike, before any cryptographic operation runs. -/
theorem C5_size_rejection :
    (∀ (fw m : List Nat) (v : Nat) (km : KeyMaterial), v ≤ 65535 → m.length ≤ 1024 →
      fw.length = 32769 →
      protect_firmware fw v m km = .error (.sizeLimitExceeded .firmware)) ∧
    (∀ (fw m : List Nat) (v : Nat) (km : KeyMaterial), v ≤ 65535 → m.length = 1025 →
      protect_firmware fw v m km = .error (.sizeLimitExceeded .message)) ∧
    (∀ (fw m : List Nat) (v : Nat) (km : KeyMaterial), v ≤ 65535 → m.length ≤ 1024 →
      fw.length ≤ 32768 → (protect_firmware fw v m km).isOk = true) := by
  refine ⟨?_, ?_, ?_⟩
  · intro fw m v km hv hm hf
    rw [protect_firmware, if_neg (by rw [MAX_VERSION]; omega),
      if_neg (by rw [MAX_MESSAGE_SIZE]; omega),
      if_pos (by rw [MAX_FIRMWARE_SIZE]; omega)]
  · intro fw m v km hv hm
    rw [protect_firmware, if_neg (by rw [MAX_VERSION]; omega),
      if_pos (by rw [MAX_MESSAGE_SIZE]; omega)]
  · intro fw m v km hv hm hf
    rw [protect_firmware_ok km hv hm hf]
    rfl

/-- Witness for the amended C5 at the boundary values. -/
theorem C5_size_rejection_witness :
    protect_firmware (List.replicate 32769 0) 1 []
        ⟨List.replicate 32 0, List.replicate 16 0, 1⟩ =
      .error (.sizeLimitExceeded .firmware) ∧
    protect_firmware [9] 1 (List.replicate 1025 97)
        ⟨List.replicate 32 0, List.replicate 16 0, 1⟩ =
      .error (.sizeLimitExceeded .message) ∧
    (protect_firmware (List.replicate 32768 0) 1 (List.replicate 1024 97)
        ⟨List.replicate 32 0, List.replicate 16 0, 1⟩).isOk = true :=
  ⟨C5_size_rejection.1 (List.replicate 32769 0) [] 1 _ (by omega) (by simp)
     (List.length_replicate 32769 0),
   C5_size_rejection.2.1 [9] (List.replicate 1025 97) 1 _ (by omega)
     (List.length_replicate 1025 97),
   C5_size_rejection.2.2 (List.replicate 32768 0) (List.replicate 1024 97) 1 _
     (by omega) (by rw [List.length_replicate]) (by rw [List.length_replicate])⟩

/-- C6 as stated is false on the code: the claim's "2-byte big-endian
length prefix" does not hold — `send_firmware` packs data-frame lengths
with native byte order (`struct.pack(f"H{len(data)}s", ...)`, little-endian
on the host), so the first data frame of a 300-byte payload starts with the
bytes [0x00, 0x01] (256 little-endian) where a big-endian prefix would be
[0x01, 0x00].  Only the zero-length terminator is packed big-endian, which
is byte-identical for zero. -/
theorem C6_counterexample :
    ((send_firmware (List.replicate 300 7)
        ⟨List.replicate 4 [79], []⟩).2.out.get? 1).map (List.take 2) = some [0, 1] ∧
    ¬ (([0, 1] : List Nat) = [1, 0]) :=
  ⟨by decide, by decide⟩

/-- C6 (amended): during transfer the session partitions the payload into
chunks of `FRAME_SIZE = 256` bytes (last chunk possibly shorter), wraps
each chunk as a 2-byte little-endian (native byte order) length prefix
followed by exactly that many payload bytes, and sends them strictly in
order with exactly one frame in flight — each frame write is followed by a
blocking single-byte read that must return OK before the next frame; the
number of data frames is `ceil(len(payload) / 256)` (zero data frames for
an empty payload), concatenating the chunks in order reproduces the payload
exactly, and a 300-byte payload yields exactly 2 data frames (256 and 44
bytes) followed by the zero-length terminator frame. -/
theorem C6_chunking (payload : List Nat) (out0 : List (List Nat)) :
    send_firmware payload
        ⟨List.replicate ((chunksOf payload).length + 2) [79], out0⟩ =
      (.ok (), ⟨[], out0 ++ [CHUNK] ++
        (chunksOf payload).map (fun d => toLE16 d.length ++ d) ++ [[0, 0]]⟩) ∧
    (chunksOf payload).length = (payload.length + 255) / 256 ∧
    (chunksOf payload).flatten = payload ∧
    (∀ d ∈ chunksOf payload, d.length ≤ FRAME_SIZE) ∧
    (payload.length = 300 → (chunksOf payload).map List.length = [256, 44]) := by
  refine ⟨send_firmware_ok payload out0, chunksOf_length payload,
    chunksOf_flatten payload, chunksOf_size_le payload, ?_⟩
  intro h
  have h1 : payload ≠ [] := by
    intro hh
    rw [hh] at h
    simp at h
  rw [chunksOf_cons h1]
  have hd1 : payload.drop FRAME_SIZE ≠ [] := by
    intro hh
    have := congrArg List.length hh
    simp only [List.length_drop, List.length_nil, FRAME_SIZE, h] at this
    omega
  rw [chunksOf_cons hd1]
  have hd2 : (payload.drop FRAME_SIZE).drop FRAME_SIZE = [] := by
    apply List.eq_nil_of_length_eq_zero
    simp only [List.length_drop, FRAME_SIZE, h]
  rw [hd2, chunksOf_nil]
  simp only [List.map_cons, List.map_nil, List.length_take, List.length_drop,
    FRAME_SIZE, h]
  norm_num

/-- Witness for the amended C6 at a concrete 300-byte payload. -/
theorem C6_chunking_witness :
    send_firmware (List.replicate 300 7)
        ⟨List.replicate ((chunksOf (List.replicate 300 7)).length + 2) [79], []⟩ =
      (.ok (), ⟨[], [] ++ [CHUNK] ++
        (chunksOf (List.replicate 300 7)).map (fun d => toLE16 d.length ++ d) ++
        [[0, 0]]⟩) ∧
    (chunksOf (List.replicate 300 7)).length = ((List.replicate 300 7).length + 255) / 256 ∧
    (chunksOf (List.replicate 300 7)).flatten = List.replicate 300 7 ∧
    (∀ d ∈ chunksOf (List.replicate 300 7), d.length ≤ FRAME_SIZE) ∧
    ((List.replicate 300 7).length = 300 →
      (chunksOf (List.replicate 300 7)).map List.length = [256, 44]) :=
  C6_chunking (List.replicate 300 7) []

/-- C7: Protocol abort on NACK — if the device answers the handshake and the
first `k` data frames with the OK byte and answers frame `k+1` with any
non-OK byte `b`, `send_firmware` aborts with `ChunkRejected (k+1)`, having
sent exactly the `CHUNK` token and the first `k+1` data frames: no further
frames (and no terminator) are sent after the rejection, whatever the
device would have answered later (`rest` is arbitrary). -/
theorem C7_nack_abort (payload : List Nat) (k b : Nat) (rest out0 : List (List Nat))
    (hk : k < (chunksOf payload).length) (hb : b ≠ 79) :
    send_firmware payload ⟨[79] :: (List.replicate k [79] ++ [b] :: rest), out0⟩ =
      (.error (.chunkRejected (k + 1)),
        ⟨rest, out0 ++ [CHUNK] ++ ((chunksOf payload).map packFrame).take (k + 1)⟩) :=
  send_firmware_reject payload k b rest out0 hk hb

/-- Witness for C7: a 300-byte payload, first frame OK, second frame
answered with a non-OK byte. -/
theorem C7_nack_abort_witness :
    send_firmware (List.replicate 300 7)
        ⟨[79] :: (List.replicate 1 [79] ++ [66] :: [[79]]), []⟩ =
      (.error (.chunkRejected 2),
        ⟨[[79]], [] ++ [CHUNK] ++
          ((chunksOf (List.replicate 300 7)).map packFrame).take 2⟩) :=
  C7_nack_abort (List.replicate 300 7) 1 66 [[79]] [] (by decide) (by decide)

/-- C8 as stated is false on the code: in the metadata exchange the session
writes the metadata token, waits for the acknowledgment *first*, and then
writes 70 bytes — the 64-byte signature followed by the 6-byte header
(`update` calls `send_metadata(ser, signature + metadata)`, which writes its
whole argument) — not "exactly the 6-byte header".  Concretely, the write
trace of a successful metadata exchange is a 1-byte token followed by a
70-byte write. -/
theorem C8_counterexample :
    (send_metadata (List.replicate 64 0 ++ [1, 0, 100, 0, 5, 0]) false
        ⟨[[79], [1, 0], [2, 0], [3, 0]], []⟩).2.out.map List.length = [1, 70] ∧
    ¬ ((70 : Nat) = 6) :=
  ⟨by decide, by decide⟩

/-- C8 (amended): in the metadata exchange the session sends the metadata
control token, blocks for a single-byte acknowledgment, and only then sends
the 70-byte `signature ‖ header` slice of the locally re-verified bundle in
one write (the 6-byte header is its tail), before reading the echo
responses; with a silent device it blocks right after the token, having
sent nothing else. -/
theorem C8_metadata_exchange (md : List Nat) (debug : Bool) (e1 e2 e3 : List Nat)
    (out0 rest : List (List Nat)) (hlen : md.length = 70)
    (hv : ¬ (parseLE16 ((md.drop 64).take 2) = 0 ∧ debug = false))
    (he1 : e1.length = 2) (he2 : e2.length = 2) (he3 : e3.length = 2) :
    send_metadata md debug ⟨[79] :: e1 :: e2 :: e3 :: rest, out0⟩ =
      (.ok true, ⟨rest, out0 ++ [META, md]⟩) ∧
    send_metadata md debug ⟨[], out0⟩ = (.error .blocked, ⟨[], out0 ++ [META]⟩) :=
  ⟨send_metadata_run md debug e1 e2 e3 out0 rest (by omega) hv he1 he2 he3,
   send_metadata_blocked_before_payload md debug out0 (by omega) hv⟩

/-- Witness for the amended C8 at a concrete 70-byte signature-plus-header. -/
theorem C8_metadata_exchange_witness :
    send_metadata (List.replicate 64 0 ++ [1, 0, 100, 0, 5, 0]) false
        ⟨[79] :: [1, 0] :: [2, 0] :: [3, 0] :: [], []⟩ =
      (.ok true, ⟨[], [] ++ [META, List.replicate 64 0 ++ [1, 0, 100, 0, 5, 0]]⟩) ∧
    send_metadata (List.replicate 64 0 ++ [1, 0, 100, 0, 5, 0]) false ⟨[], []⟩ =
      (.error .blocked, ⟨[], [] ++ [META]⟩) :=
  C8_metadata_exchange (List.replicate 64 0 ++ [1, 0, 100, 0, 5, 0]) false
    [1, 0] [2, 0] [3, 0] [] [] (by decide) (by decide)
    (by decide) (by decide) (by decide)

/-- C9 as stated is false on the code: the Bundler's encode has no version-0
check at all — `protect_firmware` accepts version 0 with no override flag in
its interface (its only version check is `assert version <= MAX_VERSION`).
Concretely, encoding with version 0 succeeds. -/
theorem C9_counterexample :
    (protect_firmware [1, 2] 0 [104]
      ⟨List.replicate 32 0, List.replicate 16 0, 1⟩).isOk = true := by
  rw [protect_firmware_ok _ (by omega) (by simp) (by simp)]
  rfl

/-- C9 (amended): only the Transfer Session's metadata step rejects version
0 — `send_metadata` without the `debug` override aborts on version 0 before
writing anything to the channel, and with the override set it proceeds and
completes; the Bundler's `protect_firmware` accepts version 0
unconditionally, having no override flag at all. -/
theorem C9_version_zero :
    (∀ (fw m : List Nat) (km : KeyMaterial), m.length ≤ 1024 → fw.length ≤ 32768 →
      (protect_firmware fw 0 m km).isOk = true) ∧
    (∀ (md : List Nat) (c : Chan), 68 ≤ md.length →
      parseLE16 ((md.drop 64).take 2) = 0 →
      send_metadata md false c = (.error .invalidVersionRequest, c)) ∧
    (∀ (md e1 e2 e3 : List Nat) (out0 rest : List (List Nat)),
      68 ≤ md.length → parseLE16 ((md.drop 64).take 2) = 0 →
      e1.length = 2 → e2.length = 2 → e3.length = 2 →
      send_metadata md true ⟨[79] :: e1 :: e2 :: e3 :: rest, out0⟩ =
        (.ok true, ⟨rest, out0 ++ [META, md]⟩)) := by
  refine ⟨?_, ?_, ?_⟩
  · intro fw m km hm hf
    rw [protect_firmware_ok km (by omega) hm hf]
    rfl
  · intro md c hlen h0
    exact send_metadata_rejects_v0 md c hlen h0
  · intro md e1 e2 e3 out0 rest hlen h0 he1 he2 he3
    exact send_metadata_run md true e1 e2 e3 out0 rest hlen (by simp) he1 he2 he3

/-- Witness for the amended C9 at concrete inputs: encode accepts version 0;
the metadata step rejects version 0 without the override and accepts it
with the override. -/
theorem C9_version_zero_witness :
    (protect_firmware [5] 0 [104]
      ⟨List.replicate 32 0, List.replicate 16 0, 1⟩).isOk = true ∧
    send_metadata (List.replicate 64 0 ++ [0, 0, 3, 0, 1, 0]) false
        ⟨[[79], [1, 0], [2, 0], [3, 0]], [[9]]⟩ =
      (.error .invalidVersionRequest, ⟨[[79], [1, 0], [2, 0], [3, 0]], [[9]]⟩) ∧
    send_metadata (List.replicate 64 0 ++ [0, 0, 3, 0, 1, 0]) true
        ⟨[79] :: [1, 0] :: [2, 0] :: [3, 0] :: [], []⟩ =
      (.ok true, ⟨[], [] ++ [META, List.replicate 64 0 ++ [0, 0, 3, 0, 1, 0]]⟩) :=
  ⟨C9_version_zero.1 [5] [104] ⟨List.replicate 32 0, List.replicate 16 0, 1⟩
     (by decide) (by decide),
   C9_version_zero.2.1 (List.replicate 64 0 ++ [0, 0, 3, 0, 1, 0])
     ⟨[[79], [1, 0], [2, 0], [3, 0]], [[9]]⟩ (by decide) (by decide),
   C9_version_zero.2.2 (List.replicate 64 0 ++ [0, 0, 3, 0, 1, 0])
     [1, 0] [2, 0] [3, 0] [] [] (by decide) (by decide) (by decide) (by decide) (by decide)⟩

/-- C10 (implicit): after writing the metadata bytes the session reads back
three 2-byte echoes (version, size, message length) and completes the
metadata step successfully for every possible echoed value triple — the
echoed values are never compared against the metadata that was sent (the
success and the resulting channel state do not depend on `e1`, `e2`, `e3`
beyond their being 2 bytes each, nor on the bytes of `md`); the only echoed
response that aborts the step is an `ERROR` token read in place of the
version echo. -/
theorem C10_metadata_echoes (md : List Nat) (debug : Bool) (e1 e2 e3 : List Nat)
    (out0 rest : List (List Nat)) (hlen : 68 ≤ md.length)
    (hv : ¬ (parseLE16 ((md.drop 64).take 2) = 0 ∧ debug = false))
    (he1 : e1.length = 2) (he2 : e2.length = 2) (he3 : e3.length = 2) :
    send_metadata md debug ⟨[79] :: e1 :: e2 :: e3 :: rest, out0⟩ =
      (.ok true, ⟨rest, out0 ++ [META, md]⟩) ∧
    send_metadata md debug ⟨[79] :: [69] :: rest, out0⟩ =
      (.error .invalidVersionRequest, ⟨rest, out0 ++ [META, md]⟩) :=
  ⟨send_metadata_run md debug e1 e2 e3 out0 rest hlen hv he1 he2 he3,
   send_metadata_error_echo md debug out0 rest hlen hv⟩

/-- Witness for C10 with arbitrary-looking echo values unrelated to the
metadata that was sent. -/
theorem C10_metadata_echoes_witness :
    send_metadata (List.replicate 64 0 ++ [7, 0, 100, 0, 5, 0]) false
        ⟨[79] :: [255, 255] :: [0, 0] :: [42, 1] :: [], []⟩ =
      (.ok true, ⟨[], [] ++ [META, List.replicate 64 0 ++ [7, 0, 100, 0, 5, 0]]⟩) ∧
    send_metadata (List.replicate 64 0 ++ [7, 0, 100, 0, 5, 0]) false
        ⟨[79] :: [69] :: [], []⟩ =
      (.error .invalidVersionRequest,
        ⟨[], [] ++ [META, List.replicate 64 0 ++ [7, 0, 100, 0, 5, 0]]⟩) :=
  C10_metadata_echoes (List.replicate 64 0 ++ [7, 0, 100, 0, 5, 0]) false
    [255, 255] [0, 0] [42, 1] [] [] (by decide) (by decide)
    (by decide) (by decide) (by decide)

end Cobblestone
